import Mathlib

/-!
# summon_gitlab: secret resolution (`gitlab.go`)

A shallow embedding of the secret-resolution core of `gitlab.go`:
`convertKey`, `getSecretFile`, `getSecretValue`, `getEnv` and `RetrieveSecret`.

Conventions of the embedding.

* A Go `string` is an immutable sequence of bytes: `GoString = List (Fin 256)`.
  String literals of the source are written `goStr "..."` (their UTF-8 bytes).
* A Go call that can end in a run-time panic returns `Option`; `none` is the panic.
* The outside world the code talks to (the HTTP server, the JSON decoder of
  `encoding/json`, the `.env` loader) is an explicit parameter `World`.
* A Go `error` value is `Option GoError`; `none` is `nil`.
* `log.Printf` output is not modelled; `log.Fatal*` ends the run (`Result.fatal`).
* The assignment to `http.DefaultTransport` (certificate checks switched off)
  has no part in what the fetchers return and is not modelled.
* `url.PathEscape`, `strings.ReplaceAll` and `strings.Contains` are standard
  library functions; they are written out here as the library documents them.
-/

namespace SummonGitlab

/-! ## Go strings -/

/-- One byte of a Go string. -/
abbrev Byte := Fin 256

/-- A Go `string`: a sequence of bytes. -/
abbrev GoString := List Byte

/-- The Go string holding the UTF-8 bytes of a literal. -/
def goStr (s : String) : GoString :=
  s.toList.flatMap (fun c => (String.utf8EncodeChar c).map (fun b => b.val))

/-- The Go slice expression `s[lo:hi]` on a string: it panics (`none`) unless
`lo ≤ hi ≤ len(s)`. -/
def slice (s : GoString) (lo hi : Nat) : Option GoString :=
  if lo ≤ hi ∧ hi ≤ s.length then some ((s.take hi).drop lo) else none

/-! ## `net/url` and `strings` (standard library, as used by `convertKey`) -/

/-- The table `upperhex` of `net/url`. -/
def upperhex : GoString := goStr "0123456789ABCDEF"

/-- The test `shouldEscape(c, encodePathSegment)` of `net/url`: letters, digits and
`- _ . ~` are kept; of the reserved characters `$ & + , / : ; = ? @` only
`/ ; , ?` are escaped; every other byte is escaped. -/
def shouldEscape (c : Byte) : Bool :=
  -- 'a' <= c <= 'z' (97..122), 'A' <= c <= 'Z' (65..90), '0' <= c <= '9' (48..57)
  if (97 ≤ c ∧ c ≤ 122) ∨ (65 ≤ c ∧ c ≤ 90) ∨ (48 ≤ c ∧ c ≤ 57) then false
  -- case '-' (45), '_' (95), '.' (46), '~' (126)
  else if c = 45 ∨ c = 95 ∨ c = 46 ∨ c = 126 then false
  -- case '$' (36), '&' (38), '+' (43), ',' (44), '/' (47), ':' (58), ';' (59),
  -- '=' (61), '?' (63), '@' (64)
  else if c = 36 ∨ c = 38 ∨ c = 43 ∨ c = 44 ∨ c = 47 ∨ c = 58 ∨ c = 59 ∨ c = 61
      ∨ c = 63 ∨ c = 64 then
    -- return c == '/' || c == ';' || c == ',' || c == '?'
    decide (c = 47 ∨ c = 59 ∨ c = 44 ∨ c = 63)
  -- everything else must be escaped
  else true

/-- What `escape` of `net/url` writes for one byte in mode `encodePathSegment`:
`%` and the two upper-case hex digits `upperhex[c>>4]`, `upperhex[c&15]` for a
byte that must be escaped, the byte itself otherwise. -/
def escapeByte (c : Byte) : GoString :=
  if shouldEscape c then
    -- '%' is 37
    [37, upperhex.getD (c.val >>> 4) 0, upperhex.getD (c.val &&& 15) 0]
  else [c]

/-- Go `url.PathEscape`: every byte of the input is written out by `escapeByte`. -/
def PathEscape (s : GoString) : GoString :=
  s.flatMap escapeByte

/-- Go `strings.ReplaceAll(s, old, new)` for an `old` of one byte: every occurrence
of the byte is replaced by `new`. -/
def ReplaceAll (s : GoString) (old : Byte) (new : GoString) : GoString :=
  s.flatMap (fun c => if c = old then new else [c])

/-- Go `strings.Contains(s, substr)`: `substr` occurs somewhere within `s`. -/
def Contains (s substr : GoString) : Bool :=
  s.tails.any (fun t => substr.isPrefixOf t)

/-! ## `convertKey` -/

/-- Function `convertKey` of `gitlab.go`. The test `encoded[:1] == "/"` is a slice
expression, so the call panics (`none`) when the slice is out of range. -/
def convertKey (path : GoString) : Option GoString := do
  let encoded := path
  let head ← slice encoded 0 1
  let encoded ← if head = goStr "/" then slice path 1 path.length else pure encoded
  let encoded := PathEscape encoded
  -- '.' is 46
  let encoded := ReplaceAll encoded 46 (goStr "%2E")
  pure encoded

/-- Step 1 of the path encoder as the specification words it: strip exactly one
leading `/` if present, no-op otherwise. -/
def strip : GoString → GoString
  | [] => []
  -- '/' is 47
  | c :: s => if c = 47 then s else c :: s

/-- What `convertKey` writes for one byte of the stripped path: the escape of
`PathEscape`, with every `.` then replaced by `%2E`. -/
def encodeByte (c : Byte) : GoString :=
  ReplaceAll (escapeByte c) 46 (goStr "%2E")

/-- The value of an upper-case hex digit. -/
def unhex (c : Byte) : Nat :=
  if 48 ≤ c ∧ c ≤ 57 then c.val - 48 else c.val - 55

/-- Reads a byte back from its code: a code of one byte is the byte, a code of
three bytes is the value of its two hex digits. -/
def decodeByte : GoString → Nat
  | [a] => a.val
  | [_, x, y] => unhex x * 16 + unhex y
  | _ => 0

/-! ## Data model of `gitlab.go` -/

/-- Type `VaultEntry`: one element of the variables listing. -/
structure VaultEntry where
  Value : GoString
  Key : GoString
deriving DecidableEq

/-- Type `VaultFile`: the record of the repository files API. -/
structure VaultFile where
  FileName : GoString
  FilePath : GoString
  Size : Int
  Encoding : GoString
  ContentSha256 : GoString
  Ref : GoString
  BlobID : GoString
  CommitID : GoString
  LastCommitID : GoString
  Content : GoString
deriving DecidableEq

/-- Type `SecretNotFoundError` of `gitlab.go`. -/
structure SecretNotFoundError where
  Key : GoString
  Msg : GoString
deriving DecidableEq

/-- An error value produced by the libraries the code calls (`net/http`,
`io/ioutil`, `encoding/json`, `godotenv`). These packages cannot name a type of
package `main`, so such a value is never a `*SecretNotFoundError`. -/
structure LibError where
  text : GoString
deriving DecidableEq

/-- The dynamic type of a non-nil `error` returned by the fetchers. -/
inductive GoError where
  | lib (err : LibError)
  | secretNotFound (err : SecretNotFoundError)
deriving DecidableEq

/-! ## The outside world -/

/-- An HTTP request as handed to `client.Do`: method, URL as given to
`http.NewRequest`, and the header entries added by `Header.Add`. -/
structure Request where
  Method : GoString
  URL : GoString
  Header : List (GoString × GoString)
deriving DecidableEq

/-- The fields of `http.Response` the code reads. `Body` is what
`ioutil.ReadAll(resp.Body)` yields. -/
structure Response where
  StatusCode : Int
  Status : GoString
  Body : Except LibError GoString

/-- The process environment, as seen by `os.LookupEnv`. -/
abbrev Environ := GoString → Option GoString

/-- Everything outside the program: whether `http.NewRequest` rejects a method
and URL, the answer of the server to a request, the two uses of
`json.Unmarshal`, and the effect of `godotenv.Load` on the environment. -/
structure World where
  requestError : GoString → GoString → Option LibError
  Do : Request → Except LibError Response
  unmarshalEntries : GoString → Except LibError (List VaultEntry)
  unmarshalFile : GoString → Except LibError VaultFile
  Load : Environ → Except LibError Environ

/-- Go `http.NewRequest(method, url, nil)`: the request, without header entries
yet, unless the method and URL are rejected. -/
def NewRequest (w : World) (method url : GoString) : Except LibError Request :=
  match w.requestError method url with
  | some err => .error err
  | none => .ok { Method := method, URL := url, Header := [] }

/-- Go `req.Header.Add(key, value)`. -/
def Request.headerAdd (req : Request) (key value : GoString) : Request :=
  { req with Header := req.Header ++ [(key, value)] }

/-- How a call ends: it returns the pair `(string, error)`, or it ends in a
run-time panic, or `log.Fatal*` terminates the process. -/
inductive Result where
  | ret (secret : GoString) (err : Option GoError)
  | panic
  | fatal
deriving DecidableEq

/-- The observable behaviour of a call: the requests handed to `client.Do`, in
order, and how the call ended. -/
structure Run where
  sent : List Request
  result : Result
deriving DecidableEq

/-! ## The fetchers -/

/-- Go `http.StatusOK`. -/
def StatusOK : Int := 200

/-- Function `getSecretFile` of `gitlab.go`. -/
def getSecretFile (w : World) (url token path : GoString) : Run :=
  match convertKey path with
  | none => ⟨[], .panic⟩
  | some path_converted =>
    let uri := url ++ path_converted ++ goStr "?ref=main"
    match NewRequest w (goStr "GET") uri with
    | .error err => ⟨[], .ret (goStr "") (some (.lib err))⟩
    | .ok req =>
      let req := req.headerAdd (goStr "PRIVATE-TOKEN") token
      match w.Do req with
      | .error err => ⟨[req], .ret (goStr "") (some (.lib err))⟩
      | .ok resp =>
        if resp.StatusCode ≠ StatusOK then
          ⟨[req], .ret (goStr "") (some (.secretNotFound ⟨path, resp.Status⟩))⟩
        else
          match resp.Body with
          | .error err => ⟨[req], .ret (goStr "") (some (.lib err))⟩
          | .ok body =>
            match w.unmarshalFile body with
            | .error err => ⟨[req], .ret (goStr "") (some (.lib err))⟩
            | .ok vaultFile => ⟨[req], .ret vaultFile.Content none⟩

/-- The loop `for _, s := range secrets` of `getSecretValue`: the value the
loop returns, or `none` when it runs to its end. -/
def searchSecrets (secretKey : GoString) : List VaultEntry → Option GoString
  | [] => none
  | s :: rest => if s.Key = secretKey then some s.Value else searchSecrets secretKey rest

/-- Function `getSecretValue` of `gitlab.go`. -/
def getSecretValue (w : World) (url token secretKey : GoString) : Run :=
  match NewRequest w (goStr "GET") url with
  | .error err => ⟨[], .ret (goStr "") (some (.lib err))⟩
  | .ok req =>
    let req := req.headerAdd (goStr "PRIVATE-TOKEN") token
    match w.Do req with
    | .error err => ⟨[req], .ret (goStr "") (some (.lib err))⟩
    | .ok resp =>
      match resp.Body with
      | .error err => ⟨[req], .ret (goStr "") (some (.lib err))⟩
      | .ok body =>
        match w.unmarshalEntries body with
        | .error err => ⟨[req], .ret (goStr "") (some (.lib err))⟩
        | .ok secrets =>
          match searchSecrets secretKey secrets with
          | some value => ⟨[req], .ret value none⟩
          | none =>
            ⟨[req], .ret (goStr "") (some (.secretNotFound
              ⟨secretKey, goStr "secret key not listed in the response"⟩))⟩

/-! ## Configuration and `RetrieveSecret` -/

/-- Function `getEnv` of `gitlab.go`: the value and the environment after the call, or
`none` when `log.Fatalf` / `log.Fatalln` ends the process. -/
def getEnv (w : World) (env : Environ) (key : GoString) : Option (GoString × Environ) :=
  match env key with
  | some value => some (value, env)
  | none =>
    match w.Load env with
    | .error _ => none
    | .ok env1 =>
      let value := (env1 key).getD (goStr "")
      if value ≠ goStr "" then some (value, env1) else none

/-- Function `getToken` of `gitlab.go`. -/
def getToken (w : World) (env : Environ) : Option (GoString × Environ) :=
  getEnv w env (goStr "GITLAB_TOKEN")

/-- Function `getApiStore` of `gitlab.go`. -/
def getApiStore (w : World) (env : Environ) : Option (GoString × Environ) :=
  getEnv w env (goStr "GITLAB_VAULT_STORE")

/-- Function `getApiVariables` of `gitlab.go`. -/
def getApiVariables (w : World) (env : Environ) : Option (GoString × Environ) :=
  getEnv w env (goStr "GITLAB_VAULT_API")

/-- Function `RetrieveSecret` of `gitlab.go`, run in the environment `env`. -/
def RetrieveSecret (w : World) (env : Environ) (key : GoString) : Run :=
  match getToken w env with
  | none => ⟨[], .fatal⟩
  | some (token, env1) =>
    if Contains key (goStr "/") = true then
      match getApiStore w env1 with
      | none => ⟨[], .fatal⟩
      | some (vault, _) => getSecretFile w vault token key
    else
      match getApiVariables w env1 with
      | none => ⟨[], .fatal⟩
      | some (vault, _) => getSecretValue w vault token key

/-! ## The fake backends of `gitlab_test.go` -/

/-- The two entries served by `FakeVaultHandler`. -/
def fakeEntries : List VaultEntry :=
  [ { Value := goStr "it works", Key := goStr "smoketest" },
    { Value := goStr "email@address.de", Key := goStr "user" } ]

/-- The record served by `FakeFileHandler`: `VaultFile{Content: "file_content_here"}`. -/
def fakeFile : VaultFile :=
  { FileName := [], FilePath := [], Size := 0, Encoding := [], ContentSha256 := [],
    Ref := [], BlobID := [], CommitID := [], LastCommitID := [],
    Content := goStr "file_content_here" }

/-- A world in the manner of the `httptest` servers of `gitlab_test.go`: no
request is rejected, every request is answered `200 OK`, and the content served
decodes to `entries` as a variables listing and to `file` as a file record. -/
def fakeWorld (entries : List VaultEntry) (file : VaultFile) : World where
  requestError := fun _ _ => none
  Do := fun _ => .ok { StatusCode := 200, Status := goStr "200 OK", Body := .ok (goStr "json") }
  unmarshalEntries := fun _ => .ok entries
  unmarshalFile := fun _ => .ok file
  Load := fun env => .ok env

/-- A server that answers every request with the given status and with a
content that `json.Unmarshal` rejects. -/
def statusWorld (code : Int) (status : GoString) : World where
  requestError := fun _ _ => none
  Do := fun _ => .ok { StatusCode := code, Status := status, Body := .ok (goStr "<html>") }
  unmarshalEntries := fun _ => .error ⟨goStr "invalid character"⟩
  unmarshalFile := fun _ => .error ⟨goStr "invalid character"⟩
  Load := fun env => .ok env

/-- An environment in which the three configuration variables are set. -/
def fakeEnviron : Environ := fun k =>
  if k = goStr "GITLAB_TOKEN" then some (goStr "fakeToken")
  else if k = goStr "GITLAB_VAULT_STORE" then some (goStr "http://store/")
  else if k = goStr "GITLAB_VAULT_API" then some (goStr "http://variables")
  else none

/-! ## Lemmas on `convertKey` -/

theorem goStr_slash : goStr "/" = [47] := by decide

theorem goStr_empty : goStr "" = [] := by decide

/-- Steps 2 and 3 of `convertKey` act byte by byte. -/
theorem replaceAll_pathEscape (s : GoString) :
    ReplaceAll (PathEscape s) 46 (goStr "%2E") = s.flatMap encodeByte := by
  induction s with
  | nil => rfl
  | cons c s ih =>
    have h : ReplaceAll (PathEscape (c :: s)) 46 (goStr "%2E")
        = encodeByte c ++ ReplaceAll (PathEscape s) 46 (goStr "%2E") := by
      simp [ReplaceAll, PathEscape, encodeByte, List.flatMap_append]
    rw [h, ih]; rfl

theorem convertKey_nil : convertKey [] = none := by decide

/-- On a non-empty path `convertKey` returns: it encodes the path without its
first byte when that byte is `/`, and the whole path otherwise. -/
theorem convertKey_cons (c : Byte) (s : GoString) :
    convertKey (c :: s) = some ((strip (c :: s)).flatMap encodeByte) := by
  by_cases hc : c = 47
  · subst hc
    simp [convertKey, slice, goStr_slash, strip, replaceAll_pathEscape]
  · simp [convertKey, slice, goStr_slash, strip, replaceAll_pathEscape, hc]

set_option maxRecDepth 100000 in
/-- The code of a byte is the byte itself (and then not `%`), or `%` followed
by two more bytes. -/
theorem encodeByte_shape : ∀ c : Byte,
    (encodeByte c = [c] ∧ c ≠ 37) ∨
      encodeByte c = [37, (encodeByte c).getD 1 0, (encodeByte c).getD 2 0] := by
  decide

set_option maxRecDepth 100000 in
theorem decodeByte_encodeByte : ∀ c : Byte, decodeByte (encodeByte c) = c.val := by
  decide

theorem encodeByte_injective {c d : Byte} (h : encodeByte c = encodeByte d) : c = d := by
  apply Fin.ext
  rw [← decodeByte_encodeByte c, ← decodeByte_encodeByte d, h]

theorem encodeByte_ne_nil (c : Byte) : encodeByte c ≠ [] := by
  rcases encodeByte_shape c with h | h <;> intro h0
  · rw [h0] at h; exact absurd h.1 (by simp)
  · rw [h0] at h; exact absurd h (by simp)

/-- The byte-wise code is uniquely decodable. -/
theorem flatMap_encodeByte_injective :
    ∀ s t : GoString, s.flatMap encodeByte = t.flatMap encodeByte → s = t := by
  intro s
  induction s with
  | nil =>
    intro t h
    cases t with
    | nil => rfl
    | cons d t =>
      simp [List.flatMap_cons] at h
      exact absurd h.1 (encodeByte_ne_nil d)
  | cons c s ih =>
    intro t h
    cases t with
    | nil =>
      simp [List.flatMap_cons] at h
      exact absurd h.1 (encodeByte_ne_nil c)
    | cons d t =>
      rw [List.flatMap_cons, List.flatMap_cons] at h
      have key : encodeByte c = encodeByte d ∧ s.flatMap encodeByte = t.flatMap encodeByte := by
        rcases encodeByte_shape c with ⟨hc, hc37⟩ | hc <;>
          rcases encodeByte_shape d with ⟨hd, hd37⟩ | hd
        · rw [hc, hd] at h ⊢
          simp at h
          exact ⟨by rw [h.1], h.2⟩
        · rw [hc, hd] at h
          simp at h
          exact absurd h.1 hc37
        · rw [hc, hd] at h
          simp at h
          exact absurd h.1.symm hd37
        · apply List.append_inj h
          rw [hc, hd]; rfl
      rw [encodeByte_injective key.1, ih t key.2]

/-! ## Lemmas on the fetchers -/

/-- The loop returns the value of the entry of smallest index that carries the key. -/
theorem searchSecrets_first (k : GoString) :
    ∀ (L : List VaultEntry) (i : Nat) (hi : i < L.length), L[i].Key = k →
      (∀ (j : Nat) (hj : j < L.length), j < i → L[j].Key ≠ k) →
      searchSecrets k L = some L[i].Value := by
  intro L
  induction L with
  | nil => intro i hi; simp at hi
  | cons e L ih =>
    intro i hi hk hfirst
    cases i with
    | zero =>
      simp at hk
      simp [searchSecrets, hk]
    | succ i =>
      have h0 : e.Key ≠ k := hfirst 0 (by simp) (by omega)
      simp only [searchSecrets, h0, if_false, List.getElem_cons_succ]
      apply ih i (by simpa using hi) (by simpa using hk)
      intro j hj hji
      have := hfirst (j + 1) (by simpa using hj) (by omega)
      simpa using this

/-- The loop runs to its end when no entry carries the key. -/
theorem searchSecrets_none (k : GoString) :
    ∀ L : List VaultEntry, (∀ e ∈ L, e.Key ≠ k) → searchSecrets k L = none := by
  intro L
  induction L with
  | nil => intro _; rfl
  | cons e L ih =>
    intro h
    have h0 : e.Key ≠ k := h e (by simp)
    simp only [searchSecrets, h0, if_false]
    exact ih (fun e he => h e (by simp [he]))

/-- The test `strings.Contains(key, "/")` holds exactly when the byte `/` occurs in `key`. -/
theorem contains_slash (key : GoString) :
    Contains key (goStr "/") = true ↔ (47 : Byte) ∈ key := by
  rw [goStr_slash]
  induction key with
  | nil => simp [Contains, List.isPrefixOf]
  | cons c s ih =>
    have h : Contains (c :: s) [47] = ((47 == c) || Contains s [47]) := by
      simp [Contains, List.isPrefixOf]
    rw [h, Bool.or_eq_true, ih, beq_iff_eq, List.mem_cons]

/-- Every call of `getSecretValue` returns. -/
theorem getSecretValue_returns (w : World) (url token key : GoString) :
    ∃ s e, (getSecretValue w url token key).result = .ret s e := by
  unfold getSecretValue
  repeat' (first | split | dsimp only)
  all_goals exact ⟨_, _, rfl⟩

/-- Every call of `getSecretFile` on a non-empty path returns. -/
theorem getSecretFile_returns (w : World) (url token path : GoString) (h : path ≠ []) :
    ∃ s e, (getSecretFile w url token path).result = .ret s e := by
  cases path with
  | nil => exact absurd rfl h
  | cons c p =>
    unfold getSecretFile
    rw [convertKey_cons]
    repeat' (first | split | dsimp only)
    all_goals first | exact ⟨_, _, rfl⟩ | (rename_i h0; exact absurd h0 (by simp))

/-! ## The variable fetcher -/

/-- C1 (first match): when the response body decodes to the sequence `L` and
`i` is the smallest index whose entry has the requested key, `getSecretValue`
sends its one request and returns `(L[i].Value, nil)`. -/
theorem getSecretValue_first_match (w : World) (url token k body : GoString)
    (resp : Response) (L : List VaultEntry) (i : Nat) (hi : i < L.length)
    (hreq : w.requestError (goStr "GET") url = none)
    (hdo : w.Do ⟨goStr "GET", url, [(goStr "PRIVATE-TOKEN", token)]⟩ = .ok resp)
    (hbody : resp.Body = .ok body)
    (hparse : w.unmarshalEntries body = .ok L)
    (hkey : L[i].Key = k)
    (hfirst : ∀ (j : Nat) (hj : j < L.length), j < i → L[j].Key ≠ k) :
    getSecretValue w url token k =
      ⟨[⟨goStr "GET", url, [(goStr "PRIVATE-TOKEN", token)]⟩], .ret L[i].Value none⟩ := by
  simp [getSecretValue, NewRequest, hreq, Request.headerAdd, hdo, hbody, hparse,
    searchSecrets_first k L i hi hkey hfirst]

/-- C1, on the listing of `FakeVaultHandler` with the key `smoketest`, and on a
listing in which two entries share the key: the earlier one is returned. -/
theorem getSecretValue_first_match_witness :
    (getSecretValue (fakeWorld fakeEntries fakeFile) (goStr "http://variables")
        (goStr "fakeToken") (goStr "smoketest")).result = .ret (goStr "it works") none ∧
    (getSecretValue
        (fakeWorld [⟨goStr "other", goStr "a"⟩, ⟨goStr "first", goStr "k"⟩,
          ⟨goStr "second", goStr "k"⟩] fakeFile)
        (goStr "http://variables") (goStr "fakeToken") (goStr "k")).result
      = .ret (goStr "first") none :=
  ⟨congrArg Run.result
      (getSecretValue_first_match (fakeWorld fakeEntries fakeFile) (goStr "http://variables")
        (goStr "fakeToken") (goStr "smoketest") (goStr "json") _ fakeEntries 0 (by decide)
        rfl rfl rfl rfl (by decide) (by intro j hj h; omega)),
    congrArg Run.result
      (getSecretValue_first_match (fakeWorld _ fakeFile) (goStr "http://variables")
        (goStr "fakeToken") (goStr "k") (goStr "json") _ _ 1 (by decide)
        rfl rfl rfl rfl (by decide)
        (by intro j hj h
            obtain rfl : j = 0 := by omega
            simp only [List.getElem_cons_zero]
            decide))⟩

/-- C2 as stated fails: on the listing of `FakeVaultHandler` and the key
`unmatched` the error returned is not the `SecretNotFoundError` whose `Msg` is
`key not listed in response`. -/
theorem getSecretValue_not_found_counterexample :
    (getSecretValue (fakeWorld fakeEntries fakeFile) (goStr "http://variables")
        (goStr "fakeToken") (goStr "unmatched")).result ≠
      .ret (goStr "") (some (.secretNotFound
        ⟨goStr "unmatched", goStr "key not listed in response"⟩)) := by
  decide

/-- C2 (amended): when the response body decodes to a sequence `L` in which no
entry has the requested key (the empty sequence included), `getSecretValue`
returns the empty string and the `SecretNotFoundError` whose `Key` is the
requested key and whose `Msg` is `secret key not listed in the response`. -/
theorem getSecretValue_not_found (w : World) (url token k body : GoString)
    (resp : Response) (L : List VaultEntry)
    (hreq : w.requestError (goStr "GET") url = none)
    (hdo : w.Do ⟨goStr "GET", url, [(goStr "PRIVATE-TOKEN", token)]⟩ = .ok resp)
    (hbody : resp.Body = .ok body)
    (hparse : w.unmarshalEntries body = .ok L)
    (hnone : ∀ e ∈ L, e.Key ≠ k) :
    getSecretValue w url token k =
      ⟨[⟨goStr "GET", url, [(goStr "PRIVATE-TOKEN", token)]⟩],
        .ret (goStr "") (some (.secretNotFound
          ⟨k, goStr "secret key not listed in the response"⟩))⟩ := by
  simp [getSecretValue, NewRequest, hreq, Request.headerAdd, hdo, hbody, hparse,
    searchSecrets_none k L hnone]

/-- C2 (amended), on the listing of `FakeVaultHandler` with the key `unmatched`
and on the empty listing. -/
theorem getSecretValue_not_found_witness :
    (getSecretValue (fakeWorld fakeEntries fakeFile) (goStr "http://variables")
        (goStr "fakeToken") (goStr "unmatched")).result =
      .ret (goStr "") (some (.secretNotFound
        ⟨goStr "unmatched", goStr "secret key not listed in the response"⟩)) ∧
    (getSecretValue (fakeWorld [] fakeFile) (goStr "http://variables")
        (goStr "fakeToken") (goStr "unmatched")).result =
      .ret (goStr "") (some (.secretNotFound
        ⟨goStr "unmatched", goStr "secret key not listed in the response"⟩)) :=
  ⟨congrArg Run.result
      (getSecretValue_not_found (fakeWorld fakeEntries fakeFile) (goStr "http://variables")
        (goStr "fakeToken") (goStr "unmatched") (goStr "json") _ fakeEntries
        rfl rfl rfl rfl (by decide)),
    congrArg Run.result
      (getSecretValue_not_found (fakeWorld [] fakeFile) (goStr "http://variables")
        (goStr "fakeToken") (goStr "unmatched") (goStr "json") _ []
        rfl rfl rfl rfl (by decide))⟩

/-! ## The path encoder -/

/-- C3 (one leading slash is ignored): for a non-empty path `p` that does not
begin with `/`, `convertKey` returns on `p` and on `"/" ++ p`, with the same
result. -/
theorem convertKey_leading_slash (p : GoString) (hne : p ≠ [])
    (hslash : ¬ (goStr "/" <+: p)) :
    convertKey (goStr "/" ++ p) = convertKey p ∧ ∃ e, convertKey p = some e := by
  cases p with
  | nil => exact absurd rfl hne
  | cons c s =>
    have hc : c ≠ 47 := by
      intro h
      apply hslash
      rw [goStr_slash, h]
      exact ⟨s, rfl⟩
    rw [goStr_slash]
    refine ⟨?_, _, convertKey_cons c s⟩
    show convertKey (47 :: c :: s) = convertKey (c :: s)
    rw [convertKey_cons, convertKey_cons]
    simp [strip, hc]

/-- C3 on the paths of `TestConvertKey`: both encode to
`certificates%2Ftest%2Etxt`. -/
theorem convertKey_leading_slash_witness :
    convertKey (goStr "/certificates/test.txt") = convertKey (goStr "certificates/test.txt") ∧
    convertKey (goStr "certificates/test.txt") = some (goStr "certificates%2Ftest%2Etxt") :=
  ⟨(convertKey_leading_slash (goStr "certificates/test.txt") (by decide) (by decide)).1,
    by decide⟩

/-- C9 fails on the code: on the empty path the slice `encoded[:1]` of
`convertKey` is out of range, so `convertKey("")` panics instead of returning
`""`, and with it `getSecretFile` on the empty path, before any request. -/
theorem convertKey_empty_panics :
    convertKey (goStr "") = none ∧
    ∀ (w : World) (url token : GoString),
      getSecretFile w url token (goStr "") = ⟨[], .panic⟩ := by
  refine ⟨by decide, fun w url token => ?_⟩
  rw [goStr_empty]
  simp [getSecretFile, convertKey_nil]

/-- C10 (injective up to the stripped slash): non-empty paths with the same
`convertKey` result are equal after one leading `/` is stripped. -/
theorem convertKey_injective (p q : GoString) (hp : p ≠ []) (hq : q ≠ [])
    (h : convertKey p = convertKey q) : strip p = strip q := by
  cases p with
  | nil => exact absurd rfl hp
  | cons c s =>
    cases q with
    | nil => exact absurd rfl hq
    | cons d t =>
      rw [convertKey_cons, convertKey_cons] at h
      exact flatMap_encodeByte_injective _ _ (Option.some.inj h)

/-- C10 on `/a.b` and `a.b`, which encode alike and strip alike; and read
backwards, `a.b` and `a%2Eb`, and `//x` and `/x`, differ after stripping and so
encode differently. -/
theorem convertKey_injective_witness :
    (convertKey (goStr "/a.b") = convertKey (goStr "a.b") ∧
      strip (goStr "/a.b") = strip (goStr "a.b")) ∧
    convertKey (goStr "a.b") ≠ convertKey (goStr "a%2Eb") ∧
    convertKey (goStr "//x") ≠ convertKey (goStr "/x") :=
  ⟨⟨by decide,
      convertKey_injective (goStr "/a.b") (goStr "a.b") (by decide) (by decide) (by decide)⟩,
    fun h => absurd
      (convertKey_injective (goStr "a.b") (goStr "a%2Eb") (by decide) (by decide) h) (by decide),
    fun h => absurd
      (convertKey_injective (goStr "//x") (goStr "/x") (by decide) (by decide) h) (by decide)⟩

/-! ## The file fetcher -/

/-- C5 (success path): when `convertKey` returns `enc` on the path, the only
request `getSecretFile` can send is the `GET` to `url ++ enc ++ "?ref=main"`
with the token in `PRIVATE-TOKEN`; and when that request is answered with
status 200 and a body that decodes to the record `r`, the call returns
`(r.Content, nil)`. -/
theorem getSecretFile_success (w : World) (url token path enc : GoString)
    (henc : convertKey path = some enc) :
    ((getSecretFile w url token path).sent = [] ∨
      (getSecretFile w url token path).sent =
        [⟨goStr "GET", url ++ enc ++ goStr "?ref=main", [(goStr "PRIVATE-TOKEN", token)]⟩]) ∧
    ∀ (resp : Response) (body : GoString) (r : VaultFile),
      w.requestError (goStr "GET") (url ++ enc ++ goStr "?ref=main") = none →
      w.Do ⟨goStr "GET", url ++ enc ++ goStr "?ref=main", [(goStr "PRIVATE-TOKEN", token)]⟩
        = .ok resp →
      resp.StatusCode = StatusOK →
      resp.Body = .ok body →
      w.unmarshalFile body = .ok r →
      getSecretFile w url token path =
        ⟨[⟨goStr "GET", url ++ enc ++ goStr "?ref=main", [(goStr "PRIVATE-TOKEN", token)]⟩],
          .ret r.Content none⟩ := by
  constructor
  · unfold getSecretFile NewRequest
    rw [henc]
    cases hre : w.requestError (goStr "GET") (url ++ enc ++ goStr "?ref=main") with
    | some err => left; simp only [hre]
    | none =>
      right
      simp only [hre, Request.headerAdd, List.nil_append]
      repeat' (first | split | dsimp only)
  · intro resp body r hreq hdo hst hbody hparse
    simp [-List.append_assoc, getSecretFile, henc, NewRequest, hreq, Request.headerAdd, hdo, hst, hbody, hparse]

/-- C5 on `TestGetSecretFile`: the path `/certificates/test.txt` against a
backend serving `VaultFile{Content: "file_content_here"}`. -/
theorem getSecretFile_success_witness :
    getSecretFile (fakeWorld fakeEntries fakeFile) (goStr "http://store/") (goStr "fakeToken")
        (goStr "/certificates/test.txt") =
      ⟨[⟨goStr "GET", goStr "http://store/certificates%2Ftest%2Etxt?ref=main",
          [(goStr "PRIVATE-TOKEN", goStr "fakeToken")]⟩],
        .ret (goStr "file_content_here") none⟩ :=
  (getSecretFile_success (fakeWorld fakeEntries fakeFile) (goStr "http://store/")
    (goStr "fakeToken") (goStr "/certificates/test.txt") (goStr "certificates%2Ftest%2Etxt")
    (by decide)).2 _ (goStr "json") fakeFile rfl rfl rfl rfl rfl

/-- C6 (non-success status): when the request of `getSecretFile` is answered
with a status code other than 200, the call returns the empty string and the
`SecretNotFoundError` whose `Key` is the path as passed in and whose `Msg` is
the status text of the response, whatever the body and the decoder. -/
theorem getSecretFile_status_not_ok (w : World) (url token path enc : GoString)
    (resp : Response)
    (henc : convertKey path = some enc)
    (hreq : w.requestError (goStr "GET") (url ++ enc ++ goStr "?ref=main") = none)
    (hdo : w.Do ⟨goStr "GET", url ++ enc ++ goStr "?ref=main",
      [(goStr "PRIVATE-TOKEN", token)]⟩ = .ok resp)
    (hst : resp.StatusCode ≠ StatusOK) :
    getSecretFile w url token path =
      ⟨[⟨goStr "GET", url ++ enc ++ goStr "?ref=main", [(goStr "PRIVATE-TOKEN", token)]⟩],
        .ret (goStr "") (some (.secretNotFound ⟨path, resp.Status⟩))⟩ := by
  simp [-List.append_assoc, getSecretFile, henc, NewRequest, hreq, Request.headerAdd, hdo, hst]

/-- C6 on a server answering `403 Forbidden` and on one answering
`404 Not Found`: the two errors differ in the status text only. -/
theorem getSecretFile_status_not_ok_witness :
    (getSecretFile (statusWorld 403 (goStr "403 Forbidden")) (goStr "http://store/")
        (goStr "fakeToken") (goStr "/certificates/test.txt")).result =
      .ret (goStr "") (some (.secretNotFound
        ⟨goStr "/certificates/test.txt", goStr "403 Forbidden"⟩)) ∧
    (getSecretFile (statusWorld 404 (goStr "404 Not Found")) (goStr "http://store/")
        (goStr "fakeToken") (goStr "/certificates/test.txt")).result =
      .ret (goStr "") (some (.secretNotFound
        ⟨goStr "/certificates/test.txt", goStr "404 Not Found"⟩)) :=
  ⟨congrArg Run.result
      (getSecretFile_status_not_ok (statusWorld 403 (goStr "403 Forbidden"))
        (goStr "http://store/") (goStr "fakeToken") (goStr "/certificates/test.txt")
        (goStr "certificates%2Ftest%2Etxt") _ (by decide) rfl rfl (by decide)),
    congrArg Run.result
      (getSecretFile_status_not_ok (statusWorld 404 (goStr "404 Not Found"))
        (goStr "http://store/") (goStr "fakeToken") (goStr "/certificates/test.txt")
        (goStr "certificates%2Ftest%2Etxt") _ (by decide) rfl rfl (by decide))⟩

/-! ## Both fetchers -/

/-- C7 (parse failures are hard failures): when `json.Unmarshal` rejects the
response body with the error `e` (in `getSecretValue`; in `getSecretFile` after
a status 200), the fetcher returns the empty string together with `e` itself,
which is not a `SecretNotFoundError`. -/
theorem parse_failure_is_hard (w : World) (url token key body : GoString)
    (resp : Response) (e : LibError) :
    (w.requestError (goStr "GET") url = none →
      w.Do ⟨goStr "GET", url, [(goStr "PRIVATE-TOKEN", token)]⟩ = .ok resp →
      resp.Body = .ok body →
      w.unmarshalEntries body = .error e →
      getSecretValue w url token key =
        ⟨[⟨goStr "GET", url, [(goStr "PRIVATE-TOKEN", token)]⟩],
          .ret (goStr "") (some (.lib e))⟩) ∧
    (∀ enc : GoString, convertKey key = some enc →
      w.requestError (goStr "GET") (url ++ enc ++ goStr "?ref=main") = none →
      w.Do ⟨goStr "GET", url ++ enc ++ goStr "?ref=main", [(goStr "PRIVATE-TOKEN", token)]⟩
        = .ok resp →
      resp.StatusCode = StatusOK →
      resp.Body = .ok body →
      w.unmarshalFile body = .error e →
      getSecretFile w url token key =
        ⟨[⟨goStr "GET", url ++ enc ++ goStr "?ref=main", [(goStr "PRIVATE-TOKEN", token)]⟩],
          .ret (goStr "") (some (.lib e))⟩) ∧
    ∀ n : SecretNotFoundError, GoError.lib e ≠ GoError.secretNotFound n := by
  refine ⟨?_, ?_, fun n h => by cases h⟩
  · intro hreq hdo hbody hparse
    simp [getSecretValue, NewRequest, hreq, Request.headerAdd, hdo, hbody, hparse]
  · intro enc henc hreq hdo hst hbody hparse
    simp [-List.append_assoc, getSecretFile, henc, NewRequest, hreq, Request.headerAdd, hdo, hst, hbody, hparse]

/-- C7 on a server that answers `200 OK` with a body that is not JSON. -/
theorem parse_failure_is_hard_witness :
    (getSecretValue (statusWorld 200 (goStr "200 OK")) (goStr "http://variables")
        (goStr "fakeToken") (goStr "smoketest")).result =
      .ret (goStr "") (some (.lib ⟨goStr "invalid character"⟩)) ∧
    (getSecretFile (statusWorld 200 (goStr "200 OK")) (goStr "http://store/")
        (goStr "fakeToken") (goStr "a/b")).result =
      .ret (goStr "") (some (.lib ⟨goStr "invalid character"⟩)) :=
  ⟨congrArg Run.result
      ((parse_failure_is_hard (statusWorld 200 (goStr "200 OK")) (goStr "http://variables")
        (goStr "fakeToken") (goStr "smoketest") (goStr "<html>") _ _).1 rfl rfl rfl rfl),
    congrArg Run.result
      ((parse_failure_is_hard (statusWorld 200 (goStr "200 OK")) (goStr "http://store/")
        (goStr "fakeToken") (goStr "a/b") (goStr "<html>") _ _).2.1 (goStr "a%2Fb")
        (by decide) rfl rfl rfl rfl rfl)⟩

/-- A fetcher result with a non-nil error carries the empty string (`getSecretValue`). -/
theorem getSecretValue_error_empty (w : World) (url token key s : GoString) (e : GoError)
    (h : (getSecretValue w url token key).result = .ret s (some e)) : s = goStr "" := by
  unfold getSecretValue at h
  repeat' (first | split at h | dsimp only at h)
  all_goals first | (cases h; rfl) | cases h

/-- A fetcher result with a non-nil error carries the empty string (`getSecretFile`). -/
theorem getSecretFile_error_empty (w : World) (url token path s : GoString) (e : GoError)
    (h : (getSecretFile w url token path).result = .ret s (some e)) : s = goStr "" := by
  unfold getSecretFile at h
  repeat' (first | split at h | dsimp only at h)
  all_goals first | (cases h; rfl) | cases h

/-- C8 (value and error exclude each other): whenever `getSecretValue`,
`getSecretFile` or `RetrieveSecret` returns a non-nil error, the string
returned with it is empty. -/
theorem value_error_exclusive (w : World) (env : Environ) (url token key s : GoString)
    (e : GoError)
    (h : (getSecretValue w url token key).result = .ret s (some e) ∨
      (getSecretFile w url token key).result = .ret s (some e) ∨
      (RetrieveSecret w env key).result = .ret s (some e)) :
    s = goStr "" := by
  rcases h with h | h | h
  · exact getSecretValue_error_empty w url token key s e h
  · exact getSecretFile_error_empty w url token key s e h
  · unfold RetrieveSecret at h
    repeat' (first | split at h | dsimp only at h)
    all_goals first
      | exact getSecretValue_error_empty _ _ _ _ s e h
      | exact getSecretFile_error_empty _ _ _ _ s e h
      | cases h

/-- C8 on a file backend answering `404 Not Found`: the error is non-nil and
the string is empty. -/
theorem value_error_exclusive_witness :
    (RetrieveSecret (statusWorld 404 (goStr "404 Not Found")) fakeEnviron
        (goStr "/certificates/test.txt")).result =
      .ret (goStr "") (some (.secretNotFound
        ⟨goStr "/certificates/test.txt", goStr "404 Not Found"⟩)) ∧
    goStr "" = goStr "" :=
  ⟨by decide,
    value_error_exclusive (statusWorld 404 (goStr "404 Not Found")) fakeEnviron
      (goStr "http://store/") (goStr "fakeToken") (goStr "/certificates/test.txt") (goStr "")
      (.secretNotFound ⟨goStr "/certificates/test.txt", goStr "404 Not Found"⟩)
      (Or.inr (Or.inr (by decide)))⟩

/-- No call of `RetrieveSecret` ends in a panic: it returns what the fetcher
returns, or the process is ended by a missing configuration value. -/
theorem RetrieveSecret_returns_or_fatal (w : World) (env : Environ) (key : GoString) :
    (∃ s e, (RetrieveSecret w env key).result = .ret s e) ∨
      (RetrieveSecret w env key).result = .fatal := by
  unfold RetrieveSecret
  split
  · right; rfl
  · split
    · rename_i hc
      have hne : key ≠ [] := by
        intro h0
        rw [contains_slash, h0] at hc
        simp at hc
      split
      · right; rfl
      · left; exact getSecretFile_returns w _ _ key hne
    · split
      · right; rfl
      · left; exact getSecretValue_returns w _ _ key

/-! ## The dispatcher -/

/-- C4 (routing): with the token `getToken` yields, a key containing `/` makes
`RetrieveSecret` behave exactly as `getSecretFile` called with the endpoint of
`getApiStore`, the token and the key; a key without `/` makes it behave exactly
as `getSecretValue` called with the endpoint of `getApiVariables`, the token
and the key: same requests sent, same pair returned. -/
theorem RetrieveSecret_routing (w : World) (env env1 : Environ) (key token : GoString)
    (htoken : getToken w env = some (token, env1)) :
    ((47 : Byte) ∈ key → ∀ (vault : GoString) (env2 : Environ),
      getApiStore w env1 = some (vault, env2) →
      RetrieveSecret w env key = getSecretFile w vault token key) ∧
    ((47 : Byte) ∉ key → ∀ (vault : GoString) (env2 : Environ),
      getApiVariables w env1 = some (vault, env2) →
      RetrieveSecret w env key = getSecretValue w vault token key) := by
  constructor
  · intro hkey vault env2 hvault
    have hc : Contains key (goStr "/") = true := (contains_slash key).2 hkey
    simp [RetrieveSecret, htoken, hc, hvault]
  · intro hkey vault env2 hvault
    have hc : ¬ (Contains key (goStr "/") = true) := fun h => hkey ((contains_slash key).1 h)
    simp [RetrieveSecret, htoken, hc, hvault]

/-- C4 on the two keys of `TestRetrieveSecret`: `/certificates/test.txt` goes
to the file store, `smoketest` to the variables listing. -/
theorem RetrieveSecret_routing_witness :
    RetrieveSecret (fakeWorld fakeEntries fakeFile) fakeEnviron (goStr "/certificates/test.txt")
      = getSecretFile (fakeWorld fakeEntries fakeFile) (goStr "http://store/")
          (goStr "fakeToken") (goStr "/certificates/test.txt") ∧
    RetrieveSecret (fakeWorld fakeEntries fakeFile) fakeEnviron (goStr "smoketest")
      = getSecretValue (fakeWorld fakeEntries fakeFile) (goStr "http://variables")
          (goStr "fakeToken") (goStr "smoketest") :=
  ⟨(RetrieveSecret_routing (fakeWorld fakeEntries fakeFile) fakeEnviron fakeEnviron
      (goStr "/certificates/test.txt") (goStr "fakeToken") rfl).1 (by decide)
      (goStr "http://store/") fakeEnviron rfl,
    (RetrieveSecret_routing (fakeWorld fakeEntries fakeFile) fakeEnviron fakeEnviron
      (goStr "smoketest") (goStr "fakeToken") rfl).2 (by decide)
      (goStr "http://variables") fakeEnviron rfl⟩

end SummonGitlab
